import Mathlib

/-!
Verification development for the location-sharing backend whose core is
`src/backend/server.py`.  The handler layer is shallowly embedded as pure Lean
functions: the Mongo collection becomes an explicit list of stored documents,
the per-request nondeterminism (server clock reading, uuid supply, outcome of
the store insert and of the outbound Telegram call) becomes explicit inputs,
and each FastAPI route becomes a function from those inputs and the current
store to a response together with the new store and the list of outbound
notification calls it performed.
-/

namespace Loc

/-! ### Decimal rendering of natural numbers

Timestamps are persisted by `share_location` in a serialized textual form
(`doc['timestamp'] = doc['timestamp'].isoformat()`) and parsed back by
`get_locations` (`datetime.fromisoformat`).  A Python `datetime` instant is
modelled as a natural number of microseconds since the Unix epoch, and its
injective textual serialization as the decimal rendering of that number.  The
codec below is written with fuel-based structural recursion so that the kernel
can evaluate it on concrete inputs. -/

/-- Decimal digits of `n`, least significant first, computed with explicit
fuel; `toDigitsAux fuel n` is correct whenever `n ≤ fuel`. -/
def toDigitsAux : Nat → Nat → List Nat
  | _, 0 => []
  | 0, _ + 1 => []
  | fuel + 1, n + 1 => ((n + 1) % 10) :: toDigitsAux fuel ((n + 1) / 10)

/-- Decimal digits of `n`, least significant first. -/
def toDigits (n : Nat) : List Nat := toDigitsAux n n

/-- Value of a list of base-10 digits given least significant first. -/
def ofDigits10 : List Nat → Nat
  | [] => 0
  | d :: ds => d + 10 * ofDigits10 ds

/-- Character for a single decimal digit. -/
def digitChar (d : Nat) : Char := Char.ofNat (48 + d)

/-- Recognizer for decimal digit characters. -/
def isDigitChar (c : Char) : Bool := 48 ≤ c.toNat && c.toNat ≤ 57

/-- Numeric value of a decimal digit character. -/
def charVal (c : Char) : Nat := c.toNat - 48

/-- Decimal rendering of a natural number (most significant digit first). -/
def natToString (n : Nat) : String :=
  if n = 0 then "0" else String.mk (((toDigits n).map digitChar).reverse)

/-- Parse a decimal string back to a natural number; `none` on the empty
string or on any non-digit character. -/
def stringToNat (s : String) : Option Nat :=
  if !s.data.isEmpty && s.data.all isDigitChar then
    some (ofDigits10 ((s.data.map charVal).reverse))
  else none

/-! ### Instants -/

/-- A Python `datetime` instant (`datetime.now(timezone.utc)` values), modelled
as microseconds since the Unix epoch. -/
abbrev Datetime := Nat

/-- Serialization of an instant to its stored textual form, modelling
`datetime.isoformat`: an injective, losslessly parseable textual rendering of
the instant (the decimal rendering of the microsecond count; real ISO-8601
strings produced from a fixed-offset UTC datetime are likewise injective and
their lexicographic order agrees with chronological order). -/
def isoformat (t : Datetime) : String := natToString t

/-- Parsing of the stored textual form back to an instant, modelling
`datetime.fromisoformat`; fails on strings that are not valid renderings. -/
def fromisoformat (s : String) : Option Datetime := stringToNat s

/-! ### JSON values and pydantic field validation -/

/-- A JSON value as far as the request-body fields are concerned. -/
inductive JsonValue where
  | num (q : ℚ)
  | str (s : String)
  | boolean (b : Bool)
  | null
  deriving DecidableEq

/-- Parse a nonempty all-digit character list to a natural number. -/
def parseDigitsChars (l : List Char) : Option Nat :=
  if !l.isEmpty && l.all isDigitChar then
    some (ofDigits10 ((l.map charVal).reverse))
  else none

/-- Parse an unsigned decimal literal `digits` or `digits.digits`. -/
def parseUnsignedDecimal (l : List Char) : Option ℚ :=
  match l.span (fun c => c != '.') with
  | (ip, []) => (parseDigitsChars ip).map (fun n => (n : ℚ))
  | (ip, _ :: fp) => do
    let i ← parseDigitsChars ip
    let f ← parseDigitsChars fp
    pure ((i : ℚ) + (f : ℚ) / (10 : ℚ) ^ fp.length)

/-- Parse a signed decimal literal, modelling the numeric strings accepted by
Python's `float` constructor (exponent and special forms such as `inf` are
outside the modelled grammar; no claim exercises them). -/
def parseDecimalString (s : String) : Option ℚ :=
  match s.data with
  | '-' :: rest => (parseUnsignedDecimal rest).map (fun q => -q)
  | '+' :: rest => parseUnsignedDecimal rest
  | l => parseUnsignedDecimal l

/-- pydantic v2 lax-mode validation of a `float` field, as used by the
`latitude`, `longitude` and `accuracy` fields of `LocationCreate`: JSON
numbers are accepted, numeric strings are coerced, and booleans and `null`
are rejected. -/
def parseFloat : JsonValue → Option ℚ
  | .num q => some q
  | .str s => parseDecimalString s
  | .boolean _ => none
  | .null => none

/-! ### Data model -/

/-- The request body of `POST /api/location/share` after validation, the
`LocationCreate` pydantic model of the source. -/
structure LocationCreate where
  latitude : ℚ
  longitude : ℚ
  accuracy : Option ℚ
  deriving DecidableEq

/-- The `Location` pydantic model of the source: the complete LocationRecord
with server-generated `id` and `timestamp`. -/
structure Location where
  id : String
  latitude : ℚ
  longitude : ℚ
  accuracy : Option ℚ
  timestamp : Datetime
  deriving DecidableEq

/-- A document as stored in the `locations` Mongo collection: the dump of a
`Location` whose `timestamp` has been replaced by its serialized textual
form. -/
structure Doc where
  id : String
  latitude : ℚ
  longitude : ℚ
  accuracy : Option ℚ
  timestamp : String
  deriving DecidableEq

/-- Serialize a `Location` to its stored document, modelling
`doc = location_obj.model_dump(); doc['timestamp'] = doc['timestamp'].isoformat()`. -/
def Location.toDoc (l : Location) : Doc :=
  { id := l.id, latitude := l.latitude, longitude := l.longitude,
    accuracy := l.accuracy, timestamp := isoformat l.timestamp }

/-! ### Raw requests -/

/-- A raw JSON-object request body: a list of named fields. -/
structure RawRequest where
  fields : List (String × JsonValue)
  deriving DecidableEq

/-- Field lookup in a raw request body. -/
def RawRequest.lookup (r : RawRequest) (k : String) : Option JsonValue :=
  (r.fields.find? (fun p => p.1 == k)).map Prod.snd

/-- Error outcomes of the API, following the spec's taxonomy: `validation`
is FastAPI/pydantic request validation (client-error response, raised before
the handler body runs), `storage` is an uncaught store-driver exception from
`insert_one` (server-error response), and `notification` is the
`HTTPException(status_code=500, detail=...)` raised by
`send_location_to_telegram` after the store write. -/
inductive ApiError where
  | validation (field : String)
  | storage
  | notification (detail : String)
  deriving DecidableEq

/-- Validation of a required `float` field. -/
def requireFloat (r : RawRequest) (k : String) : Except ApiError ℚ :=
  match r.lookup k with
  | some v =>
    match parseFloat v with
    | some q => Except.ok q
    | none => Except.error (ApiError.validation k)
  | none => Except.error (ApiError.validation k)

/-- Validation of an `Optional[float] = None` field: absent or `null` gives
`none`, a numeric value gives `some`, anything else is rejected. -/
def optionalFloat (r : RawRequest) (k : String) : Except ApiError (Option ℚ) :=
  match r.lookup k with
  | none => Except.ok none
  | some JsonValue.null => Except.ok none
  | some v =>
    match parseFloat v with
    | some q => Except.ok (some q)
    | none => Except.error (ApiError.validation k)

/-- Request-body validation for `LocationCreate`.  Only the three declared
field names are consulted; pydantic `BaseModel`'s default `extra="ignore"`
behaviour means unknown fields are silently discarded. -/
def LocationCreate.parse (r : RawRequest) : Except ApiError LocationCreate :=
  match requireFloat r "latitude" with
  | Except.error e => Except.error e
  | Except.ok lat =>
    match requireFloat r "longitude" with
    | Except.error e => Except.error e
    | Except.ok lon =>
      match optionalFloat r "accuracy" with
      | Except.error e => Except.error e
      | Except.ok acc => Except.ok { latitude := lat, longitude := lon, accuracy := acc }

/-! ### Server state and per-call context -/

/-- Server-side state: the Mongo `locations` collection, plus the supply
counter backing the identifier generator. -/
structure ServerState where
  db : List Doc
  nextUuid : Nat
  deriving DecidableEq

/-- Fresh identifier generation, modelling `str(uuid.uuid4())` (Python
standard library, outside `src/`): each call yields a fresh, non-empty
identifier string distinct from every other one ever generated; the random
128-bit draw is modelled as an injective rendering of a fresh-supply
counter. -/
def genId (n : Nat) : String := String.mk ('u' :: (natToString n).data)

/-- Inverse of `genId`, used only to establish its injectivity. -/
def idVal (s : String) : Option Nat :=
  match s.data with
  | 'u' :: rest => stringToNat (String.mk rest)
  | _ => none

instance {ε α : Type _} [DecidableEq ε] [DecidableEq α] : DecidableEq (Except ε α) := fun x y =>
  match x, y with
  | Except.ok a, Except.ok b =>
    if h : a = b then isTrue (by rw [h]) else isFalse (fun hc => by cases hc; exact h rfl)
  | Except.error a, Except.error b =>
    if h : a = b then isTrue (by rw [h]) else isFalse (fun hc => by cases hc; exact h rfl)
  | Except.ok _, Except.error _ => isFalse (fun hc => by cases hc)
  | Except.error _, Except.ok _ => isFalse (fun hc => by cases hc)

/-- The per-call nondeterminism of one submit-location invocation: the server
clock reading taken by the `timestamp` default factory, whether the store
insert raises, and the outcome of the outbound Telegram HTTP call (`ok` for a
2xx response, `error reason` for a network error, non-2xx response or
timeout). -/
structure CallCtx where
  now : Datetime
  insertFails : Bool
  notifyResult : Except String Unit
  deriving DecidableEq

/-- Result of one call: the HTTP response (a `Location` on success, an
`ApiError` otherwise), the server state afterwards, and the outbound
notification payloads `(latitude, longitude)` that were pushed during the
call. -/
structure CallResult where
  response : Except ApiError Location
  state : ServerState
  notifyCalls : List (ℚ × ℚ)
  deriving DecidableEq

/-- Error translation of `send_location_to_telegram`: any failure of the
outbound call is caught and re-raised as
`HTTPException(500, detail=f"Failed to send to Telegram: {e}")`. -/
def send_location_to_telegram (outcome : Except String Unit) : Except ApiError Unit :=
  match outcome with
  | Except.ok _ => Except.ok ()
  | Except.error e => Except.error (ApiError.notification ("Failed to send to Telegram: " ++ e))

/-- The document written by a submit call that reaches the store. -/
def newDoc (u : Nat) (now : Datetime) (input : LocationCreate) : Doc :=
  { id := genId u, latitude := input.latitude, longitude := input.longitude,
    accuracy := input.accuracy, timestamp := isoformat now }

/-- The body of the `share_location` handler, after validation: construct the
`Location` (consuming a fresh identifier and stamping the server clock),
serialize and insert it into the store, then push to Telegram.  The store
insert happens strictly before the notification; an insert failure aborts the
call with `storage` and performs no notification; a notification failure is
surfaced as `notification` while the inserted document stays in the store. -/
def share_location (ctx : CallCtx) (st : ServerState) (input : LocationCreate) : CallResult :=
  let location_obj : Location :=
    { id := genId st.nextUuid, latitude := input.latitude, longitude := input.longitude,
      accuracy := input.accuracy, timestamp := ctx.now }
  if ctx.insertFails then
    { response := Except.error ApiError.storage,
      state := { db := st.db, nextUuid := st.nextUuid + 1 },
      notifyCalls := [] }
  else
    let newState : ServerState :=
      { db := st.db ++ [location_obj.toDoc], nextUuid := st.nextUuid + 1 }
    match send_location_to_telegram ctx.notifyResult with
    | Except.error e =>
      { response := Except.error e, state := newState,
        notifyCalls := [(input.latitude, input.longitude)] }
    | Except.ok _ =>
      { response := Except.ok location_obj, state := newState,
        notifyCalls := [(input.latitude, input.longitude)] }

/-- The full `POST /api/location/share` endpoint: request validation followed
by the handler body; validation failure produces no side effect. -/
def share_location_endpoint (ctx : CallCtx) (st : ServerState) (req : RawRequest) : CallResult :=
  match LocationCreate.parse req with
  | Except.error e => { response := Except.error e, state := st, notifyCalls := [] }
  | Except.ok input => share_location ctx st input

/-! ### Listing and clearing -/

/-- The sort key used by the store's `sort("timestamp", -1)`: the instant a
stored document's serialized timestamp denotes.  Mongo compares the stored
strings bytewise; on the injective fixed-shape renderings produced by
`isoformat` that order coincides with the order of the decoded instants, which
is what this key captures.  Documents whose timestamp fails to parse (never
produced by the API) are keyed as 0. -/
def timestampKey (d : Doc) : Nat := (fromisoformat d.timestamp).getD 0

/-- The `sort("timestamp", -1)` comparison: newest first. -/
def byNewest (a b : Doc) : Prop := timestampKey b ≤ timestampKey a

instance : DecidableRel byNewest :=
  fun a b => inferInstanceAs (Decidable (timestampKey b ≤ timestampKey a))

instance : IsTotal Doc byNewest := ⟨fun _ _ => Nat.le_total _ _⟩

instance : IsTrans Doc byNewest := ⟨fun _ _ _ h1 h2 => Nat.le_trans h2 h1⟩

/-- Reconstruction of a `Location` from a stored document, modelling the
read-side loop `loc['timestamp'] = datetime.fromisoformat(loc['timestamp'])`;
fails if the stored text does not parse. -/
def docToLocation (d : Doc) : Option Location :=
  (fromisoformat d.timestamp).map
    (fun t => { id := d.id, latitude := d.latitude, longitude := d.longitude,
                accuracy := d.accuracy, timestamp := t })

/-- The `Location` a well-formed stored document denotes. -/
def asLocation (d : Doc) : Location :=
  { id := d.id, latitude := d.latitude, longitude := d.longitude,
    accuracy := d.accuracy, timestamp := timestampKey d }

/-- Effectful traversal over `Option`, modelling the read-side conversion
loop: fails as soon as one element fails. -/
def mapOption (f : α → Option β) : List α → Option (List β)
  | [] => some []
  | a :: l =>
    match f a, mapOption f l with
    | some b, some bs => some (b :: bs)
    | _, _ => none

/-- The `GET /api/locations` handler: query the store sorted by timestamp
descending, truncated to 100 documents, and reconstruct each timestamp. -/
def get_locations (db : List Doc) : Option (List Location) :=
  mapOption docToLocation ((List.insertionSort byNewest db).take 100)

/-- The `DELETE /api/locations` handler: `delete_many({})` removes every
document and reports the count removed. -/
def clear_locations (db : List Doc) : Nat × List Doc := (db.length, [])

/-! ### Runs of sequential submissions -/

/-- Run a sequence of submit calls (already-validated inputs), threading the
server state; returns the final state and the per-call results. -/
def runSubmits (st : ServerState) : List (CallCtx × LocationCreate) → ServerState × List CallResult
  | [] => (st, [])
  | c :: cs =>
    let r := share_location c.1 st c.2
    let rest := runSubmits r.state cs
    (rest.1, r :: rest.2)

/-- The documents appended by a run of submit calls whose inserts all
succeed, starting from uuid counter `u`. -/
def mkDocs (u : Nat) : List (CallCtx × LocationCreate) → List Doc
  | [] => []
  | c :: cs => newDoc u c.1.now c.2 :: mkDocs (u + 1) cs

/-- A per-call success context: clock reading `t`, insert succeeds,
notification succeeds. -/
def ctxAt (t : Datetime) : CallCtx :=
  { now := t, insertFails := false, notifyResult := Except.ok () }

/-! ### The full API surface -/

/-- The requests the API serves (besides the root liveness check, which
touches no state). -/
inductive Request where
  | share (req : RawRequest)
  | list
  | clear
  deriving DecidableEq

/-- Responses of the API surface. -/
inductive Response where
  | location (r : Except ApiError Location)
  | listing (r : Option (List Location))
  | deleted (n : Nat)
  deriving DecidableEq

/-- Dispatcher over the API surface: create, list, delete-all; there is no
operation that updates an existing record. -/
def handle (ctx : CallCtx) (st : ServerState) : Request → ServerState × Response
  | Request.share req =>
    let r := share_location_endpoint ctx st req
    (r.state, Response.location r.response)
  | Request.list => (st, Response.listing (get_locations st.db))
  | Request.clear =>
    ({ db := (clear_locations st.db).2, nextUuid := st.nextUuid },
      Response.deleted (clear_locations st.db).1)

/-! ### Codec lemmas -/

theorem ofDigits10_toDigitsAux (fuel : Nat) :
    ∀ n, n ≤ fuel → ofDigits10 (toDigitsAux fuel n) = n := by
  induction fuel with
  | zero =>
    intro n hn
    have : n = 0 := Nat.le_zero.mp hn
    subst this
    rfl
  | succ fuel ih =>
    intro n hn
    cases n with
    | zero => rfl
    | succ m =>
      have hdiv : (m + 1) / 10 ≤ fuel := by
        have h1 : (m + 1) / 10 < m + 1 := Nat.div_lt_self (Nat.succ_pos m) (by norm_num)
        omega
      show (m + 1) % 10 + 10 * ofDigits10 (toDigitsAux fuel ((m + 1) / 10)) = m + 1
      rw [ih _ hdiv, Nat.mod_add_div]

theorem ofDigits10_toDigits (n : Nat) : ofDigits10 (toDigits n) = n :=
  ofDigits10_toDigitsAux n n (Nat.le_refl n)

theorem toDigitsAux_lt (fuel : Nat) :
    ∀ n, ∀ d ∈ toDigitsAux fuel n, d < 10 := by
  induction fuel with
  | zero =>
    intro n d hd
    cases n with
    | zero => simp [toDigitsAux] at hd
    | succ m => simp [toDigitsAux] at hd
  | succ fuel ih =>
    intro n d hd
    cases n with
    | zero => simp [toDigitsAux] at hd
    | succ m =>
      simp only [toDigitsAux, List.mem_cons] at hd
      rcases hd with h | h
      · subst h; exact Nat.mod_lt _ (by norm_num)
      · exact ih _ _ h

theorem toDigits_ne_nil (n : Nat) (h : n ≠ 0) : toDigits n ≠ [] := by
  cases n with
  | zero => exact absurd rfl h
  | succ m => simp [toDigits, toDigitsAux]

theorem digitChar_ok : ∀ d, d < 10 → isDigitChar (digitChar d) = true ∧ charVal (digitChar d) = d := by
  decide

theorem stringToNat_natToString (n : Nat) : stringToNat (natToString n) = some n := by
  by_cases h : n = 0
  · subst h; rfl
  · have hdig : ∀ d ∈ toDigits n, d < 10 := toDigitsAux_lt n n
    have hchars : ∀ c ∈ ((toDigits n).map digitChar).reverse, isDigitChar c = true := by
      intro c hc
      rw [List.mem_reverse, List.mem_map] at hc
      obtain ⟨d, hd, rfl⟩ := hc
      exact (digitChar_ok d (hdig d hd)).1
    have hne : ((toDigits n).map digitChar).reverse ≠ [] := by
      simp [toDigits_ne_nil n h]
    have hempty : (((toDigits n).map digitChar).reverse).isEmpty = false := by
      cases hl : ((toDigits n).map digitChar).reverse with
      | nil => exact absurd hl hne
      | cons c cs => rfl
    have hall : (((toDigits n).map digitChar).reverse).all isDigitChar = true :=
      List.all_eq_true.mpr hchars
    unfold natToString
    rw [if_neg h]
    show (if !(((toDigits n).map digitChar).reverse).isEmpty &&
            (((toDigits n).map digitChar).reverse).all isDigitChar then
          some (ofDigits10 (((((toDigits n).map digitChar).reverse).map charVal).reverse))
        else none) = some n
    rw [hempty, hall]
    simp only [Bool.not_false, Bool.and_self, if_true]
    congr 1
    rw [List.map_reverse, List.reverse_reverse, List.map_map]
    have hmap : (toDigits n).map (charVal ∘ digitChar) = (toDigits n).map id :=
      List.map_congr_left (fun d hd => (digitChar_ok d (hdig d hd)).2)
    rw [hmap, List.map_id, ofDigits10_toDigits]

theorem natToString_inj {a b : Nat} (h : natToString a = natToString b) : a = b := by
  have ha := stringToNat_natToString a
  have hb := stringToNat_natToString b
  rw [h, hb] at ha
  exact (Option.some.injEq _ _).mp ha.symm

theorem fromisoformat_isoformat (t : Datetime) : fromisoformat (isoformat t) = some t :=
  stringToNat_natToString t

theorem idVal_genId (n : Nat) : idVal (genId n) = some n := by
  show stringToNat (String.mk (natToString n).data) = some n
  exact stringToNat_natToString n

theorem genId_inj {m n : Nat} (h : genId m = genId n) : m = n := by
  have hm := idVal_genId m
  rw [h, idVal_genId n] at hm
  exact (Option.some.injEq _ _).mp hm.symm

theorem genId_ne_empty (n : Nat) : genId n ≠ "" := by
  intro h
  have : ('u' :: (natToString n).data) = ([] : List Char) := congrArg String.data h
  exact List.cons_ne_nil _ _ this

/-! ### Handler-level helper lemmas -/

theorem share_location_insertFail (ctx : CallCtx) (st : ServerState) (input : LocationCreate)
    (h : ctx.insertFails = true) :
    share_location ctx st input =
      { response := Except.error ApiError.storage,
        state := { db := st.db, nextUuid := st.nextUuid + 1 },
        notifyCalls := [] } := by
  simp [share_location, h]

theorem share_location_notifyFail (ctx : CallCtx) (st : ServerState) (input : LocationCreate)
    (e : String) (h : ctx.insertFails = false) (hn : ctx.notifyResult = Except.error e) :
    share_location ctx st input =
      { response := Except.error (ApiError.notification ("Failed to send to Telegram: " ++ e)),
        state := { db := st.db ++ [newDoc st.nextUuid ctx.now input], nextUuid := st.nextUuid + 1 },
        notifyCalls := [(input.latitude, input.longitude)] } := by
  simp [share_location, h, send_location_to_telegram, hn, newDoc, Location.toDoc]

theorem share_location_ok (ctx : CallCtx) (st : ServerState) (input : LocationCreate)
    (h : ctx.insertFails = false) (hn : ctx.notifyResult = Except.ok ()) :
    share_location ctx st input =
      { response := Except.ok
          { id := genId st.nextUuid, latitude := input.latitude,
            longitude := input.longitude, accuracy := input.accuracy, timestamp := ctx.now },
        state := { db := st.db ++ [newDoc st.nextUuid ctx.now input], nextUuid := st.nextUuid + 1 },
        notifyCalls := [(input.latitude, input.longitude)] } := by
  simp [share_location, h, send_location_to_telegram, hn, newDoc, Location.toDoc]

theorem share_location_state_db (ctx : CallCtx) (st : ServerState) (input : LocationCreate)
    (h : ctx.insertFails = false) :
    (share_location ctx st input).state =
      { db := st.db ++ [newDoc st.nextUuid ctx.now input], nextUuid := st.nextUuid + 1 } := by
  cases hn : ctx.notifyResult with
  | ok u => cases u; rw [share_location_ok ctx st input h hn]
  | error e => rw [share_location_notifyFail ctx st input e h hn]

theorem share_location_response_ok {ctx : CallCtx} {st : ServerState} {input : LocationCreate}
    {l : Location} (h : (share_location ctx st input).response = Except.ok l) :
    l = { id := genId st.nextUuid, latitude := input.latitude, longitude := input.longitude,
          accuracy := input.accuracy, timestamp := ctx.now } ∧
    ctx.insertFails = false ∧ ctx.notifyResult = Except.ok () := by
  cases hi : ctx.insertFails with
  | true => rw [share_location_insertFail ctx st input hi] at h; simp at h
  | false =>
    cases hn : ctx.notifyResult with
    | error e => rw [share_location_notifyFail ctx st input e hi hn] at h; simp at h
    | ok u =>
      cases u
      rw [share_location_ok ctx st input hi hn] at h
      simp only [Except.ok.injEq] at h
      exact ⟨h.symm, rfl, rfl⟩

/-! ### mapOption lemmas -/

theorem mapOption_eq_some_of_forall {α β : Type _} {f : α → Option β} {g : α → β} :
    ∀ l : List α, (∀ a ∈ l, f a = some (g a)) → mapOption f l = some (l.map g) := by
  intro l
  induction l with
  | nil => intro _; rfl
  | cons a l ih =>
    intro h
    have ha := h a (List.mem_cons_self a l)
    have hl := ih (fun x hx => h x (List.mem_cons_of_mem a hx))
    simp [mapOption, ha, hl]

theorem mapOption_eq_map {α β : Type _} {f : α → Option β} {g : α → β}
    (hg : ∀ a b, f a = some b → b = g a) :
    ∀ {l : List α} {out : List β}, mapOption f l = some out → out = l.map g := by
  intro l
  induction l with
  | nil =>
    intro out h
    simp only [mapOption, Option.some.injEq] at h
    simp [← h]
  | cons a l ih =>
    intro out h
    cases hfa : f a with
    | none => simp [mapOption, hfa] at h
    | some b =>
      cases hml : mapOption f l with
      | none => simp [mapOption, hfa, hml] at h
      | some bs =>
        simp only [mapOption, hfa, hml, Option.some.injEq] at h
        rw [← h, List.map_cons, ← hg a b hfa, ih hml]

/-! ### Document reconstruction lemmas -/

theorem timestampKey_newDoc (u : Nat) (now : Datetime) (input : LocationCreate) :
    timestampKey (newDoc u now input) = now := by
  simp [timestampKey, newDoc, fromisoformat_isoformat]

theorem docToLocation_of_isoformat (d : Doc) (t : Datetime) (h : d.timestamp = isoformat t) :
    docToLocation d = some (asLocation d) := by
  have hp : fromisoformat d.timestamp = some t := by rw [h]; exact fromisoformat_isoformat t
  simp [docToLocation, asLocation, timestampKey, hp]

theorem docToLocation_eq_asLocation {d : Doc} {b : Location}
    (h : docToLocation d = some b) : b = asLocation d := by
  unfold docToLocation at h
  cases hp : fromisoformat d.timestamp with
  | none => rw [hp] at h; simp at h
  | some t =>
    rw [hp] at h
    simp only [Option.map_some', Option.some.injEq] at h
    rw [← h]
    simp [asLocation, timestampKey, hp]

/-! ### Listing lemmas -/

theorem get_locations_eq_map {db : List Doc} {out : List Location}
    (h : get_locations db = some out) :
    out = ((List.insertionSort byNewest db).take 100).map asLocation :=
  mapOption_eq_map (fun _ _ hb => docToLocation_eq_asLocation hb) h

theorem get_locations_length_le {db : List Doc} {out : List Location}
    (h : get_locations db = some out) : out.length ≤ 100 := by
  rw [get_locations_eq_map h, List.length_map, List.length_take]
  exact Nat.min_le_left _ _

theorem get_locations_sorted {db : List Doc} {out : List Location}
    (h : get_locations db = some out) :
    List.Pairwise (fun a b : Location => b.timestamp ≤ a.timestamp) out := by
  rw [get_locations_eq_map h, List.pairwise_map]
  have hs : List.Sorted byNewest (List.insertionSort byNewest db) :=
    List.sorted_insertionSort byNewest db
  have ht : List.Pairwise byNewest ((List.insertionSort byNewest db).take 100) :=
    List.Pairwise.sublist (List.take_sublist 100 _) hs
  exact ht.imp (fun hab => hab)

theorem get_locations_of_wf (db : List Doc)
    (h : ∀ d ∈ db, ∃ t, d.timestamp = isoformat t) :
    get_locations db = some (((List.insertionSort byNewest db).take 100).map asLocation) := by
  apply mapOption_eq_some_of_forall
  intro d hd
  have h1 : d ∈ List.insertionSort byNewest db := (List.take_sublist 100 _).subset hd
  have hmem : d ∈ db := (List.perm_insertionSort byNewest db).mem_iff.mp h1
  obtain ⟨t, ht⟩ := h d hmem
  exact docToLocation_of_isoformat d t ht

/-! ### Run lemmas -/

theorem runSubmits_state (calls : List (CallCtx × LocationCreate)) :
    ∀ db u, (∀ c ∈ calls, c.1.insertFails = false) →
      (runSubmits { db := db, nextUuid := u } calls).1 =
        { db := db ++ mkDocs u calls, nextUuid := u + calls.length } := by
  induction calls with
  | nil => intro db u _; simp [runSubmits, mkDocs]
  | cons c cs ih =>
    intro db u h
    have hc : c.1.insertFails = false := h c (List.mem_cons_self c cs)
    have hst := share_location_state_db c.1 { db := db, nextUuid := u } c.2 hc
    show (runSubmits (share_location c.1 { db := db, nextUuid := u } c.2).state cs).1 = _
    rw [hst, ih _ _ (fun x hx => h x (List.mem_cons_of_mem c hx))]
    simp [mkDocs, ServerState.mk.injEq, List.append_assoc]
    omega

theorem mkDocs_length (calls : List (CallCtx × LocationCreate)) :
    ∀ u, (mkDocs u calls).length = calls.length := by
  induction calls with
  | nil => intro u; rfl
  | cons c cs ih => intro u; simp [mkDocs, ih]

theorem mkDocs_map_key (calls : List (CallCtx × LocationCreate)) :
    ∀ u, (mkDocs u calls).map timestampKey = calls.map (fun c => c.1.now) := by
  induction calls with
  | nil => intro u; rfl
  | cons c cs ih => intro u; simp [mkDocs, ih, timestampKey_newDoc]

theorem mkDocs_map_id (calls : List (CallCtx × LocationCreate)) :
    ∀ u, (mkDocs u calls).map Doc.id = (List.range' u calls.length).map genId := by
  induction calls with
  | nil => intro u; rfl
  | cons c cs ih =>
    intro u
    simp [mkDocs, List.range'_succ, ih, newDoc]

theorem mem_mkDocs {calls : List (CallCtx × LocationCreate)} :
    ∀ {u : Nat} {d : Doc}, d ∈ mkDocs u calls →
      ∃ v c, c ∈ calls ∧ d = newDoc v c.1.now c.2 := by
  induction calls with
  | nil => intro u d hd; simp [mkDocs] at hd
  | cons c cs ih =>
    intro u d hd
    rcases List.mem_cons.mp hd with h | h
    · exact ⟨u, c, List.mem_cons_self c cs, h⟩
    · obtain ⟨v, c', hc', hd'⟩ := ih h
      exact ⟨v, c', List.mem_cons_of_mem c hc', hd'⟩

theorem mkDocs_wf (calls : List (CallCtx × LocationCreate)) (u : Nat) :
    ∀ d ∈ mkDocs u calls, ∃ t, d.timestamp = isoformat t := by
  intro d hd
  obtain ⟨v, c, _, rfl⟩ := mem_mkDocs hd
  exact ⟨c.1.now, rfl⟩

/-! ### Validation lemmas -/

theorem requireFloat_error {r : RawRequest} {k : String} {e : ApiError}
    (h : requireFloat r k = Except.error e) : e = ApiError.validation k := by
  cases hv : r.lookup k with
  | none => simp [requireFloat, hv] at h; exact h.symm
  | some v =>
    cases hp : parseFloat v with
    | none => simp [requireFloat, hv, hp] at h; exact h.symm
    | some q => simp [requireFloat, hv, hp] at h

theorem requireFloat_ok {r : RawRequest} {k : String} {q : ℚ}
    (h : requireFloat r k = Except.ok q) :
    ∃ v, r.lookup k = some v ∧ parseFloat v = some q := by
  cases hv : r.lookup k with
  | none => simp [requireFloat, hv] at h
  | some v =>
    cases hp : parseFloat v with
    | none => simp [requireFloat, hv, hp] at h
    | some q' => simp [requireFloat, hv, hp] at h; exact ⟨v, rfl, by rw [hp, h]⟩

theorem optionalFloat_error {r : RawRequest} {k : String} {e : ApiError}
    (h : optionalFloat r k = Except.error e) : e = ApiError.validation k := by
  unfold optionalFloat at h
  cases hv : r.lookup k with
  | none => rw [hv] at h; simp at h
  | some v =>
    rw [hv] at h
    cases v with
    | null => simp at h
    | num q => simp [parseFloat] at h
    | str s =>
      cases hp : parseFloat (JsonValue.str s) with
      | none => simp [hp] at h; exact h.symm
      | some q => simp [hp] at h
    | boolean b => simp [parseFloat] at h; exact h.symm

theorem parse_error_validation {req : RawRequest} {e : ApiError}
    (h : LocationCreate.parse req = Except.error e) : ∃ f, e = ApiError.validation f := by
  unfold LocationCreate.parse at h
  cases hlat : requireFloat req "latitude" with
  | error e1 =>
    rw [hlat] at h
    simp at h
    exact ⟨"latitude", by rw [← h] at *; exact requireFloat_error hlat⟩
  | ok lat =>
    rw [hlat] at h
    cases hlon : requireFloat req "longitude" with
    | error e2 =>
      rw [hlon] at h
      simp at h
      exact ⟨"longitude", by rw [← h] at *; exact requireFloat_error hlon⟩
    | ok lon =>
      rw [hlon] at h
      cases hacc : optionalFloat req "accuracy" with
      | error e3 =>
        rw [hacc] at h
        simp at h
        exact ⟨"accuracy", by rw [← h] at *; exact optionalFloat_error hacc⟩
      | ok acc => rw [hacc] at h; simp at h

theorem parse_ok_fields {req : RawRequest} {input : LocationCreate}
    (h : LocationCreate.parse req = Except.ok input) :
    requireFloat req "latitude" = Except.ok input.latitude ∧
    requireFloat req "longitude" = Except.ok input.longitude ∧
    optionalFloat req "accuracy" = Except.ok input.accuracy := by
  unfold LocationCreate.parse at h
  cases hlat : requireFloat req "latitude" with
  | error e1 => rw [hlat] at h; simp at h
  | ok lat =>
    rw [hlat] at h
    cases hlon : requireFloat req "longitude" with
    | error e2 => rw [hlon] at h; simp at h
    | ok lon =>
      rw [hlon] at h
      cases hacc : optionalFloat req "accuracy" with
      | error e3 => rw [hacc] at h; simp at h
      | ok acc =>
        rw [hacc] at h
        simp only [Except.ok.injEq] at h
        rw [← h]
        exact ⟨rfl, rfl, rfl⟩

theorem requireFloat_congr {r1 r2 : RawRequest} {k : String}
    (h : r1.lookup k = r2.lookup k) : requireFloat r1 k = requireFloat r2 k := by
  unfold requireFloat
  rw [h]

theorem optionalFloat_congr {r1 r2 : RawRequest} {k : String}
    (h : r1.lookup k = r2.lookup k) : optionalFloat r1 k = optionalFloat r2 k := by
  unfold optionalFloat
  rw [h]

theorem parse_congr {r1 r2 : RawRequest}
    (h : ∀ k ∈ (["latitude", "longitude", "accuracy"] : List String),
      r1.lookup k = r2.lookup k) :
    LocationCreate.parse r1 = LocationCreate.parse r2 := by
  unfold LocationCreate.parse
  rw [requireFloat_congr (h "latitude" (by simp)),
      requireFloat_congr (h "longitude" (by simp)),
      optionalFloat_congr (h "accuracy" (by simp))]

theorem lookup_append_of_not_mem {fields extra : List (String × JsonValue)} {k : String}
    (h : ∀ p ∈ extra, p.1 ≠ k) :
    RawRequest.lookup { fields := fields ++ extra } k = RawRequest.lookup { fields := fields } k := by
  unfold RawRequest.lookup
  have hextra : extra.find? (fun p => p.1 == k) = none :=
    List.find?_eq_none.mpr (fun p hp => by simp [h p hp])
  rw [List.find?_append, hextra, Option.or_none]

/-! ### Claim theorems -/

/-- C1: for every submit-location call with valid (already validated) input,
the store insert is performed before the notification push: if the insert
fails the whole call fails with the storage error and no notification call is
made and the store is unchanged; if the insert succeeds and the notification
then fails, the call fails with a `notification` error carrying the underlying
reason while the inserted record remains in the store (no compensating
delete); and a notification call is only ever attempted after a successful
insert, at which point the new record is already in the store. -/
theorem C1_store_before_notify (ctx : CallCtx) (st : ServerState) (input : LocationCreate) :
    (ctx.insertFails = true →
      share_location ctx st input =
        { response := Except.error ApiError.storage,
          state := { db := st.db, nextUuid := st.nextUuid + 1 },
          notifyCalls := [] }) ∧
    (∀ e, ctx.insertFails = false → ctx.notifyResult = Except.error e →
      share_location ctx st input =
        { response := Except.error (ApiError.notification ("Failed to send to Telegram: " ++ e)),
          state := { db := st.db ++ [newDoc st.nextUuid ctx.now input],
                     nextUuid := st.nextUuid + 1 },
          notifyCalls := [(input.latitude, input.longitude)] }) ∧
    ((share_location ctx st input).notifyCalls ≠ [] →
      ctx.insertFails = false ∧
      newDoc st.nextUuid ctx.now input ∈ (share_location ctx st input).state.db) := by
  refine ⟨fun h => share_location_insertFail ctx st input h,
          fun e h hn => share_location_notifyFail ctx st input e h hn, fun hc => ?_⟩
  cases hi : ctx.insertFails with
  | true => rw [share_location_insertFail ctx st input hi] at hc; exact absurd rfl hc
  | false =>
    refine ⟨rfl, ?_⟩
    rw [share_location_state_db ctx st input hi]
    simp

/-- C1 witness: with a failing insert, the call fails with the storage error,
no notification is pushed and the store is unchanged; with a succeeding insert
and a failing notification, the record is in the store and the call reports
the notification failure. -/
theorem C1_store_before_notify_witness :
    share_location { now := 3, insertFails := true, notifyResult := Except.ok () }
        { db := [], nextUuid := 0 } { latitude := 1, longitude := 2, accuracy := none } =
      { response := Except.error ApiError.storage,
        state := { db := [], nextUuid := 1 },
        notifyCalls := [] } ∧
    share_location { now := 3, insertFails := false, notifyResult := Except.error "timeout" }
        { db := [], nextUuid := 0 } { latitude := 1, longitude := 2, accuracy := none } =
      { response := Except.error (ApiError.notification "Failed to send to Telegram: timeout"),
        state := { db := [newDoc 0 3 { latitude := 1, longitude := 2, accuracy := none }],
                   nextUuid := 1 },
        notifyCalls := [(1, 2)] } :=
  ⟨(C1_store_before_notify { now := 3, insertFails := true, notifyResult := Except.ok () }
      { db := [], nextUuid := 0 } { latitude := 1, longitude := 2, accuracy := none }).1 rfl,
   (C1_store_before_notify { now := 3, insertFails := false, notifyResult := Except.error "timeout" }
      { db := [], nextUuid := 0 } { latitude := 1, longitude := 2, accuracy := none }).2.1
      "timeout" rfl rfl⟩

/-- C2: a submit-location request whose latitude or longitude is missing or
non-numeric fails with a validation error and has no side effect: the store is
unchanged, no notification call is made, and the listing is unchanged. -/
theorem C2_validation_no_side_effect (ctx : CallCtx) (st : ServerState) (req : RawRequest)
    (h : req.lookup "latitude" = none ∨ req.lookup "longitude" = none ∨
         (∃ v, req.lookup "latitude" = some v ∧ parseFloat v = none) ∨
         (∃ v, req.lookup "longitude" = some v ∧ parseFloat v = none)) :
    ∃ f, share_location_endpoint ctx st req =
        { response := Except.error (ApiError.validation f), state := st, notifyCalls := [] } ∧
      get_locations (share_location_endpoint ctx st req).state.db = get_locations st.db := by
  cases hp : LocationCreate.parse req with
  | error e =>
    obtain ⟨f, rfl⟩ := parse_error_validation hp
    refine ⟨f, ?_, ?_⟩
    · unfold share_location_endpoint
      rw [hp]
    · unfold share_location_endpoint
      rw [hp]
  | ok input =>
    exfalso
    obtain ⟨hlat, hlon, _⟩ := parse_ok_fields hp
    obtain ⟨v1, hv1, hq1⟩ := requireFloat_ok hlat
    obtain ⟨v2, hv2, hq2⟩ := requireFloat_ok hlon
    rcases h with h | h | ⟨v, hv, hq⟩ | ⟨v, hv, hq⟩
    · rw [h] at hv1; exact Option.noConfusion hv1
    · rw [h] at hv2; exact Option.noConfusion hv2
    · rw [hv] at hv1
      cases hv1
      rw [hq] at hq1
      exact Option.noConfusion hq1
    · rw [hv] at hv2
      cases hv2
      rw [hq] at hq2
      exact Option.noConfusion hq2

/-- C2 witness: a request with a non-numeric latitude and a missing longitude
is rejected as a validation error with the store, the notification budget and
the listing untouched. -/
theorem C2_validation_no_side_effect_witness :
    ∃ f, share_location_endpoint { now := 3, insertFails := false, notifyResult := Except.ok () }
        { db := [], nextUuid := 0 }
        { fields := [("latitude", JsonValue.str "abc")] } =
      { response := Except.error (ApiError.validation f),
        state := { db := [], nextUuid := 0 }, notifyCalls := [] } ∧
      get_locations (share_location_endpoint
          { now := 3, insertFails := false, notifyResult := Except.ok () }
          { db := [], nextUuid := 0 }
          { fields := [("latitude", JsonValue.str "abc")] }).state.db =
        get_locations ([] : List Doc) :=
  C2_validation_no_side_effect
    { now := 3, insertFails := false, notifyResult := Except.ok () }
    { db := [], nextUuid := 0 }
    { fields := [("latitude", JsonValue.str "abc")] }
    (Or.inr (Or.inr (Or.inl ⟨JsonValue.str "abc", by decide⟩)))

/-- C4: the clear-history operation deletes every record unconditionally,
returns a deleted count equal to the number of records present before the
call, and a listing performed immediately after clear returns the empty
sequence. -/
theorem C4_clear_all (db : List Doc) :
    (clear_locations db).1 = db.length ∧
    (clear_locations db).2 = [] ∧
    get_locations (clear_locations db).2 = some [] :=
  ⟨rfl, rfl, rfl⟩

/-- C5: for every numeric latitude and longitude, including out-of-range
degree values, and optional numeric accuracy, a fully successful submit call
returns the complete record: the freshly generated id, the server-assigned
timestamp, and latitude, longitude and accuracy equal to the submitted
values. -/
theorem C5_full_success_record (ctx : CallCtx) (st : ServerState) (input : LocationCreate)
    (h : ctx.insertFails = false) (hn : ctx.notifyResult = Except.ok ()) :
    (share_location ctx st input).response =
      Except.ok
        { id := genId st.nextUuid, latitude := input.latitude,
          longitude := input.longitude, accuracy := input.accuracy, timestamp := ctx.now } ∧
    genId st.nextUuid ≠ "" := by
  rw [share_location_ok ctx st input h hn]
  exact ⟨rfl, genId_ne_empty st.nextUuid⟩

/-- C5 witness: a fully successful submit with out-of-range degree values
(latitude 1000, longitude -2000) returns them unchanged together with the
generated id and the server timestamp. -/
theorem C5_full_success_record_witness :
    (share_location { now := 7, insertFails := false, notifyResult := Except.ok () }
        { db := [], nextUuid := 0 }
        { latitude := 1000, longitude := -2000, accuracy := some 3 }).response =
      Except.ok
        { id := genId 0, latitude := 1000, longitude := -2000,
          accuracy := some 3, timestamp := 7 } ∧
    genId 0 ≠ "" :=
  C5_full_success_record { now := 7, insertFails := false, notifyResult := Except.ok () }
    { db := [], nextUuid := 0 }
    { latitude := 1000, longitude := -2000, accuracy := some 3 } rfl rfl

/-- Append-only shape of the submit endpoint's effect on the store. -/
theorem endpoint_db_append (ctx : CallCtx) (st : ServerState) (req : RawRequest) :
    ∃ tail, tail.length ≤ 1 ∧
      (share_location_endpoint ctx st req).state.db = st.db ++ tail := by
  cases hp : LocationCreate.parse req with
  | error e =>
    refine ⟨[], by simp, ?_⟩
    unfold share_location_endpoint
    rw [hp]
    simp
  | ok input =>
    have hend : share_location_endpoint ctx st req = share_location ctx st input := by
      unfold share_location_endpoint
      rw [hp]
    cases hi : ctx.insertFails with
    | true =>
      refine ⟨[], by simp, ?_⟩
      rw [hend, share_location_insertFail ctx st input hi]
      simp
    | false =>
      refine ⟨[newDoc st.nextUuid ctx.now input], by simp, ?_⟩
      rw [hend, share_location_state_db ctx st input hi]

/-- C6: the timestamp of a created record is the server clock reading taken at
record construction and is not influenced by any client-supplied value: every
successful response carries `timestamp = ctx.now`, two calls whose server
clock readings agree produce equal timestamps whatever their inputs and states
are, and across a sequence of submissions whose clock readings are
non-decreasing the stored timestamps are monotonically non-decreasing. -/
theorem C6_server_timestamp :
    (∀ (ctx : CallCtx) (st : ServerState) (input : LocationCreate) (l : Location),
      (share_location ctx st input).response = Except.ok l → l.timestamp = ctx.now) ∧
    (∀ (ctx ctx' : CallCtx) (st st' : ServerState) (input input' : LocationCreate)
        (l l' : Location), ctx.now = ctx'.now →
      (share_location ctx st input).response = Except.ok l →
      (share_location ctx' st' input').response = Except.ok l' →
      l.timestamp = l'.timestamp) ∧
    (∀ (u : Nat) (calls : List (CallCtx × LocationCreate)),
      (∀ c ∈ calls, c.1.insertFails = false) →
      List.Pairwise (fun a b : Datetime => a ≤ b) (calls.map fun c => c.1.now) →
      List.Pairwise (fun a b : Datetime => a ≤ b)
        ((runSubmits { db := [], nextUuid := u } calls).1.db.map timestampKey)) := by
  have h1 : ∀ (ctx : CallCtx) (st : ServerState) (input : LocationCreate) (l : Location),
      (share_location ctx st input).response = Except.ok l → l.timestamp = ctx.now := by
    intro ctx st input l h
    rw [(share_location_response_ok h).1]
  refine ⟨h1, ?_, ?_⟩
  · intro ctx ctx' st st' input input' l l' hnow h h'
    rw [h1 ctx st input l h, h1 ctx' st' input' l' h', hnow]
  · intro u calls hins hmono
    have hdb : (runSubmits { db := [], nextUuid := u } calls).1.db = mkDocs u calls := by
      rw [runSubmits_state calls [] u hins]
      simp
    rw [hdb, mkDocs_map_key]
    exact hmono

/-- C6 witness: a run of two successful submissions with non-decreasing clock
readings stores non-decreasing timestamps, and a concrete successful call
returns the clock reading as its timestamp. -/
theorem C6_server_timestamp_witness :
    List.Pairwise (fun a b : Datetime => a ≤ b)
      ((runSubmits { db := [], nextUuid := 0 }
          [(ctxAt 1, { latitude := 1, longitude := 2, accuracy := none }),
           (ctxAt 2, { latitude := 3, longitude := 4, accuracy := none })]).1.db.map
        timestampKey) :=
  C6_server_timestamp.2.2 0
    [(ctxAt 1, { latitude := 1, longitude := 2, accuracy := none }),
     (ctxAt 2, { latitude := 3, longitude := 4, accuracy := none })]
    (by decide) (by decide)

/-- C7: the timestamp of a submitted record is serialized to a textual form on
the write path and reconstructed into a structured instant on the read path,
and the round trip is lossless: parsing inverts serialization, the stored
document carries the serialized text of the creation instant, reconstruction
returns exactly the created record, and a listing performed after a successful
submit into an empty store returns the record with its creation timestamp. -/
theorem C7_timestamp_serialization (t : Datetime) (ctx : CallCtx) (st : ServerState)
    (input : LocationCreate) (h : ctx.insertFails = false)
    (_hn : ctx.notifyResult = Except.ok ()) :
    fromisoformat (isoformat t) = some t ∧
    (share_location ctx st input).state.db = st.db ++ [newDoc st.nextUuid ctx.now input] ∧
    (newDoc st.nextUuid ctx.now input).timestamp = isoformat ctx.now ∧
    docToLocation (newDoc st.nextUuid ctx.now input) =
      some { id := genId st.nextUuid, latitude := input.latitude,
             longitude := input.longitude, accuracy := input.accuracy, timestamp := ctx.now } ∧
    (st.db = [] → get_locations (share_location ctx st input).state.db =
      some [{ id := genId st.nextUuid, latitude := input.latitude,
              longitude := input.longitude, accuracy := input.accuracy,
              timestamp := ctx.now }]) := by
  have hread : docToLocation (newDoc st.nextUuid ctx.now input) =
      some { id := genId st.nextUuid, latitude := input.latitude,
             longitude := input.longitude, accuracy := input.accuracy,
             timestamp := ctx.now } := by
    simp [docToLocation, newDoc, fromisoformat_isoformat]
  refine ⟨fromisoformat_isoformat t, by rw [share_location_state_db ctx st input h], rfl,
    hread, ?_⟩
  intro hdb
  rw [share_location_state_db ctx st input h]
  show get_locations (st.db ++ [newDoc st.nextUuid ctx.now input]) = _
  rw [hdb]
  simp only [List.nil_append]
  unfold get_locations
  simp [mapOption, hread]

/-- C7 witness: the concrete instant 7 survives the serialize/parse round
trip, and listing after one successful submit into the empty store returns
the created record with timestamp 7. -/
theorem C7_timestamp_serialization_witness :
    fromisoformat (isoformat 7) = some 7 ∧
    get_locations (share_location { now := 7, insertFails := false, notifyResult := Except.ok () }
        { db := [], nextUuid := 0 }
        { latitude := 1, longitude := 2, accuracy := none }).state.db =
      some [{ id := genId 0, latitude := 1, longitude := 2, accuracy := none,
              timestamp := 7 }] :=
  ⟨(C7_timestamp_serialization 7 { now := 7, insertFails := false, notifyResult := Except.ok () }
      { db := [], nextUuid := 0 } { latitude := 1, longitude := 2, accuracy := none }
      rfl rfl).1,
   (C7_timestamp_serialization 7 { now := 7, insertFails := false, notifyResult := Except.ok () }
      { db := [], nextUuid := 0 } { latitude := 1, longitude := 2, accuracy := none }
      rfl rfl).2.2.2.2 rfl⟩

/-- C8: every record created by submit-location has a non-empty id, the id
generator never repeats a value, and the ids of the records stored by a run
of submissions are exactly the successive fresh identifiers and are pairwise
distinct, independent of the submitted coordinates. -/
theorem C8_unique_ids (u : Nat) (calls : List (CallCtx × LocationCreate))
    (h : ∀ c ∈ calls, c.1.insertFails = false) :
    (∀ n, genId n ≠ "") ∧
    (∀ m n, genId m = genId n → m = n) ∧
    (runSubmits { db := [], nextUuid := u } calls).1.db.map Doc.id =
      (List.range' u calls.length).map genId ∧
    ((runSubmits { db := [], nextUuid := u } calls).1.db.map Doc.id).Nodup := by
  have hdb : (runSubmits { db := [], nextUuid := u } calls).1.db = mkDocs u calls := by
    rw [runSubmits_state calls [] u h]
    simp
  refine ⟨genId_ne_empty, fun m n hmn => genId_inj hmn, ?_, ?_⟩
  · rw [hdb, mkDocs_map_id]
  · rw [hdb, mkDocs_map_id]
    exact (List.nodup_range' u calls.length).map (fun a b hab => genId_inj hab)

/-- C8 witness: two submissions of identical coordinates store two distinct,
non-empty ids. -/
theorem C8_unique_ids_witness :
    ((runSubmits { db := [], nextUuid := 0 }
        [(ctxAt 1, { latitude := 1, longitude := 2, accuracy := none }),
         (ctxAt 2, { latitude := 1, longitude := 2, accuracy := none })]).1.db.map
      Doc.id).Nodup ∧ genId 0 ≠ "" :=
  ⟨(C8_unique_ids 0
      [(ctxAt 1, { latitude := 1, longitude := 2, accuracy := none }),
       (ctxAt 2, { latitude := 1, longitude := 2, accuracy := none })]
      (by decide)).2.2.2,
   (C8_unique_ids 0
      [(ctxAt 1, { latitude := 1, longitude := 2, accuracy := none }),
       (ctxAt 2, { latitude := 1, longitude := 2, accuracy := none })]
      (by decide)).1 0⟩

/-- C9: records are immutable after creation: the submit endpoint only ever
appends (at most one) new document, the listing endpoint leaves the state
unchanged, clear-history only removes documents, and under every non-clearing
request every previously stored document is still present, unchanged, at its
original position. -/
theorem C9_no_update (ctx : CallCtx) (st : ServerState) (r : Request) :
    (∀ req, r = Request.share req → ∃ tail, tail.length ≤ 1 ∧
      (handle ctx st r).1.db = st.db ++ tail) ∧
    (r = Request.list → (handle ctx st r).1 = st) ∧
    (r = Request.clear → (handle ctx st r).1.db = []) ∧
    (∀ i, i < st.db.length → r ≠ Request.clear →
      (handle ctx st r).1.db[i]? = st.db[i]?) := by
  cases r with
  | share req =>
    obtain ⟨tail, htl, hdb⟩ := endpoint_db_append ctx st req
    refine ⟨?_, ?_, ?_, ?_⟩
    · intro req' hreq
      cases hreq
      exact ⟨tail, htl, hdb⟩
    · intro hc; cases hc
    · intro hc; cases hc
    · intro i hi _
      show (share_location_endpoint ctx st req).state.db[i]? = st.db[i]?
      rw [hdb]
      exact List.getElem?_append_left hi
  | list =>
    refine ⟨?_, fun _ => rfl, ?_, ?_⟩
    · intro req' hreq; cases hreq
    · intro hc; cases hc
    · intro i _ _; rfl
  | clear =>
    refine ⟨?_, ?_, fun _ => rfl, ?_⟩
    · intro req' hreq; cases hreq
    · intro hc; cases hc
    · intro i _ hne; exact absurd rfl hne

/-- C9 witness: clearing a one-document store empties it, and a listing
request leaves the state untouched. -/
theorem C9_no_update_witness :
    (handle (ctxAt 1)
      { db := [newDoc 0 1 { latitude := 1, longitude := 2, accuracy := none }], nextUuid := 1 }
      Request.clear).1.db = [] ∧
    (handle (ctxAt 1)
      { db := [newDoc 0 1 { latitude := 1, longitude := 2, accuracy := none }], nextUuid := 1 }
      Request.list).1 =
      { db := [newDoc 0 1 { latitude := 1, longitude := 2, accuracy := none }], nextUuid := 1 } :=
  ⟨(C9_no_update (ctxAt 1)
      { db := [newDoc 0 1 { latitude := 1, longitude := 2, accuracy := none }], nextUuid := 1 }
      Request.clear).2.2.1 rfl,
   (C9_no_update (ctxAt 1)
      { db := [newDoc 0 1 { latitude := 1, longitude := 2, accuracy := none }], nextUuid := 1 }
      Request.list).2.1 rfl⟩

/-- C10: a submit-location request with valid latitude and longitude plus
arbitrary additional unknown fields behaves exactly as if those fields were
absent: the endpoint's outcome depends only on the three declared field names,
and appending fields with other names changes nothing. -/
theorem C10_extra_fields_ignored (ctx : CallCtx) (st : ServerState) :
    (∀ r1 r2 : RawRequest,
      (∀ k ∈ (["latitude", "longitude", "accuracy"] : List String),
        r1.lookup k = r2.lookup k) →
      share_location_endpoint ctx st r1 = share_location_endpoint ctx st r2) ∧
    (∀ fields extra : List (String × JsonValue),
      (∀ p ∈ extra, p.1 ∉ (["latitude", "longitude", "accuracy"] : List String)) →
      share_location_endpoint ctx st { fields := fields ++ extra } =
        share_location_endpoint ctx st { fields := fields }) := by
  have hcong : ∀ r1 r2 : RawRequest,
      (∀ k ∈ (["latitude", "longitude", "accuracy"] : List String),
        r1.lookup k = r2.lookup k) →
      share_location_endpoint ctx st r1 = share_location_endpoint ctx st r2 := by
    intro r1 r2 h
    unfold share_location_endpoint
    rw [parse_congr h]
  refine ⟨hcong, fun fields extra hx => hcong _ _ ?_⟩
  intro k hk
  exact lookup_append_of_not_mem (fun p hp hpk => hx p hp (hpk ▸ hk))

/-- C10 witness: an unknown extra field (here "battery") leaves a valid
submission exactly as without it. -/
theorem C10_extra_fields_ignored_witness :
    share_location_endpoint (ctxAt 3) { db := [], nextUuid := 0 }
        { fields := [("latitude", JsonValue.num 1), ("longitude", JsonValue.num 2)] ++
            [("battery", JsonValue.num 5)] } =
      share_location_endpoint (ctxAt 3) { db := [], nextUuid := 0 }
        { fields := [("latitude", JsonValue.num 1), ("longitude", JsonValue.num 2)] } :=
  (C10_extra_fields_ignored (ctxAt 3) { db := [], nextUuid := 0 }).2
    [("latitude", JsonValue.num 1), ("longitude", JsonValue.num 2)]
    [("battery", JsonValue.num 5)] (by decide)

/-- C3 counterexample: two successful submissions that the server clock stamps
with the same instant (the clock has finite granularity, so consecutive
requests can read equal values) yield a listing of two records with equal
timestamps, which is not in strictly descending timestamp order, contradicting
the claim's "strictly descending" for N = 2 successful submissions. -/
theorem C3_listing_order_counterexample :
    get_locations (runSubmits { db := [], nextUuid := 0 }
        [(ctxAt 5, { latitude := 1, longitude := 2, accuracy := none }),
         (ctxAt 5, { latitude := 3, longitude := 4, accuracy := none })]).1.db =
      some [{ id := genId 0, latitude := 1, longitude := 2, accuracy := none, timestamp := 5 },
            { id := genId 1, latitude := 3, longitude := 4, accuracy := none, timestamp := 5 }] ∧
    ((runSubmits { db := [], nextUuid := 0 }
        [(ctxAt 5, { latitude := 1, longitude := 2, accuracy := none }),
         (ctxAt 5, { latitude := 3, longitude := 4, accuracy := none })]).2.map
      (fun r => r.response.isOk)) = [true, true] ∧
    ¬ List.Pairwise (fun a b : Location => b.timestamp < a.timestamp)
      [{ id := genId 0, latitude := 1, longitude := 2, accuracy := none, timestamp := 5 },
       { id := genId 1, latitude := 3, longitude := 4, accuracy := none, timestamp := 5 }] := by
  refine ⟨by decide, by decide, ?_⟩
  intro h
  exact absurd ((List.pairwise_cons.mp h).1 _ (List.mem_cons_self _ _)) (Nat.lt_irrefl 5)

/-- C3 (amended): for every store state the listing returns at most 100
records in descending (non-strict) timestamp order; after N successful
submissions into an empty store with N ≤ 100 it returns exactly N records in
descending timestamp order, and the order is strictly descending whenever the
server clock readings of the submissions are strictly increasing (ties in the
clock produce records with equal timestamps, so strictness cannot hold
unconditionally). -/
theorem C3_listing_order :
    (∀ (db : List Doc) (out : List Location), get_locations db = some out →
      out.length ≤ 100 ∧
      List.Pairwise (fun a b : Location => b.timestamp ≤ a.timestamp) out) ∧
    (∀ (u : Nat) (calls : List (CallCtx × LocationCreate)),
      (∀ c ∈ calls, c.1.insertFails = false ∧ c.1.notifyResult = Except.ok ()) →
      calls.length ≤ 100 →
      ∃ out, get_locations (runSubmits { db := [], nextUuid := u } calls).1.db = some out ∧
        out.length = calls.length ∧
        List.Pairwise (fun a b : Location => b.timestamp ≤ a.timestamp) out ∧
        (List.Pairwise (fun a b : Datetime => a < b) (calls.map fun c => c.1.now) →
          List.Pairwise (fun a b : Location => b.timestamp < a.timestamp) out)) := by
  refine ⟨fun db out h => ⟨get_locations_length_le h, get_locations_sorted h⟩, ?_⟩
  intro u calls hok hlen
  have hins : ∀ c ∈ calls, c.1.insertFails = false := fun c hc => (hok c hc).1
  have hdb : (runSubmits { db := [], nextUuid := u } calls).1.db = mkDocs u calls := by
    rw [runSubmits_state calls [] u hins]
    simp
  have hget := get_locations_of_wf (mkDocs u calls) (mkDocs_wf calls u)
  have hslen : (List.insertionSort byNewest (mkDocs u calls)).length = calls.length := by
    rw [(List.perm_insertionSort byNewest (mkDocs u calls)).length_eq, mkDocs_length]
  have htake : (List.insertionSort byNewest (mkDocs u calls)).take 100 =
      List.insertionSort byNewest (mkDocs u calls) :=
    List.take_of_length_le (by rw [hslen]; exact hlen)
  rw [htake] at hget
  refine ⟨(List.insertionSort byNewest (mkDocs u calls)).map asLocation, ?_, ?_, ?_, ?_⟩
  · rw [hdb, hget]
  · rw [List.length_map, hslen]
  · rw [List.pairwise_map]
    exact (List.sorted_insertionSort byNewest (mkDocs u calls)).imp (fun hab => hab)
  · intro hstrict
    rw [List.pairwise_map]
    have hnodup : ((mkDocs u calls).map timestampKey).Nodup := by
      rw [mkDocs_map_key]
      exact hstrict.imp (fun hab => Nat.ne_of_lt hab)
    have hperm : List.Perm ((List.insertionSort byNewest (mkDocs u calls)).map timestampKey)
        ((mkDocs u calls).map timestampKey) :=
      (List.perm_insertionSort byNewest (mkDocs u calls)).map timestampKey
    have hnodup2 : ((List.insertionSort byNewest (mkDocs u calls)).map timestampKey).Nodup :=
      hperm.nodup_iff.mpr hnodup
    have hne : List.Pairwise (fun a b : Doc => timestampKey a ≠ timestampKey b)
        (List.insertionSort byNewest (mkDocs u calls)) :=
      List.pairwise_map.mp hnodup2
    have hle : List.Pairwise byNewest (List.insertionSort byNewest (mkDocs u calls)) :=
      List.sorted_insertionSort byNewest (mkDocs u calls)
    exact (hle.and hne).imp
      (fun hab => Nat.lt_of_le_of_ne hab.1 (fun he => hab.2 he.symm))

/-- C3 witness: two successful submissions with strictly increasing clock
readings (1 then 2) list exactly two records, in descending and indeed
strictly descending timestamp order. -/
theorem C3_listing_order_witness :
    ∃ out, get_locations (runSubmits { db := [], nextUuid := 0 }
        [(ctxAt 1, { latitude := 1, longitude := 2, accuracy := none }),
         (ctxAt 2, { latitude := 3, longitude := 4, accuracy := none })]).1.db = some out ∧
      out.length = 2 ∧
      List.Pairwise (fun a b : Location => b.timestamp ≤ a.timestamp) out ∧
      (List.Pairwise (fun a b : Datetime => a < b)
          ([(ctxAt 1, ({ latitude := 1, longitude := 2, accuracy := none } : LocationCreate)),
            (ctxAt 2, { latitude := 3, longitude := 4, accuracy := none })].map
            fun c => c.1.now) →
        List.Pairwise (fun a b : Location => b.timestamp < a.timestamp) out) :=
  C3_listing_order.2 0
    [(ctxAt 1, { latitude := 1, longitude := 2, accuracy := none }),
     (ctxAt 2, { latitude := 3, longitude := 4, accuracy := none })]
    (by decide) (by decide)

end Loc
